import Mathlib

/-!
Verification of the screenshot-api admission and accounting layer.

Shallow embedding of the request admission, quota accounting, rate limiting,
concurrency admission, invoice reconciliation and micropayment settlement
logic of the repository (src/server.js, the USDC payment module and the x402
gate module). Machine integers are modelled as `Nat`/`Int`; JavaScript
numbers that carry money amounts are modelled as exact rationals (every
intermediate value that occurs in the source is exactly representable, and
the rounding steps of the source quantize to integers, so the rational
model agrees with the double-precision evaluation on all reachable inputs).
Timestamps are milliseconds since the epoch, modelled as `Nat`.

External collaborators (the puppeteer renderer, the Polygon RPC client, the
x402 facilitator library) are modelled at their interface boundary: the
renderer by a success flag per request, the chain query by the list of
observed transfers (or a failure), the facilitator by the outcome of its
verification, as the spec directs.
-/

namespace SnapAPI

/-! ## Credential records (server.js, api keys file) -/

/-- One API-key record, as stored in api-keys.json (server.js). -/
structure KeyData where
  name : String
  tier : String
  limit : Nat
  used : Nat
  resetMonth : String
  deriving Repr, DecidableEq

/-- resetMonthlyUsage (server.js lines 52-58): if the stored period tag
differs from the current month, zero the usage counter and update the tag.
The current month string is passed explicitly. -/
def resetMonthlyUsage (k : KeyData) (currentMonth : String) : KeyData :=
  if k.resetMonth ≠ currentMonth then
    { k with used := 0, resetMonth := currentMonth }
  else k

/-! ## Rate limiting (server.js lines 36-50) -/

/-- RATE_LIMIT_WINDOW (server.js line 14): one minute in milliseconds. -/
def RATE_LIMIT_WINDOW : Nat := 60 * 1000

/-- MAX_CONCURRENT (server.js line 15). -/
def MAX_CONCURRENT : Nat := 3

/-- One entry of the rateLimits map (server.js line 42). -/
structure RateEntry where
  count : Nat
  windowStart : Nat
  deriving Repr, DecidableEq

/-- checkRateLimit (server.js lines 40-50) for a single key: takes the
current entry of the rateLimits map for that key (`none` for a fresh key)
and the current time, returns the allow decision together with the updated
entry. In the source `now - entry.windowStart` is a JavaScript number that
can be negative, in which case the comparison with the window is false;
truncated `Nat` subtraction takes the same branch, so the embedding agrees. -/
def checkRateLimit (st : Option RateEntry) (now : Nat) : Bool × RateEntry :=
  let entry := st.getD { count := 0, windowStart := now }
  let entry :=
    if now - entry.windowStart > RATE_LIMIT_WINDOW then
      { count := 0, windowStart := now }
    else entry
  let entry := { entry with count := entry.count + 1 }
  (decide (entry.count ≤ 10), entry)

/-- A sequence of checkRateLimit calls on one key at the given times,
threading the map entry through. Returns the allow decisions in order and
the final entry. -/
def runRate (st : Option RateEntry) : List Nat → List Bool × Option RateEntry
  | [] => ([], st)
  | t :: ts =>
    let r := checkRateLimit st t
    let rest := runRate (some r.2) ts
    (r.1 :: rest.1, rest.2)

/-! ## Subscription invoices (USDC payment module) -/

/-- Invoice status values of the payment module. -/
inductive InvoiceStatus
  | pending
  | paid
  | expired
  deriving Repr, DecidableEq

/-- One entry of the PLANS price table of the payment module. -/
structure Plan where
  price : ℚ
  limit : Nat
  name : String
  deriving Repr, DecidableEq

/-- PLANS (payment module lines 22-25). -/
def PLANS : String → Option Plan
  | "pro" => some { price := 10, limit := 1000, name := "Pro" }
  | "enterprise" => some { price := 50, limit := 10000, name := "Enterprise" }
  | _ => none

/-- WALLET_ADDRESS (payment module line 14). -/
def WALLET_ADDRESS : String := "0x7483a9F237cf8043704D6b17DA31c12BfFF860DD"

/-- JavaScript Math.round on the nonnegative values that occur here:
round half toward positive infinity, i.e. the floor of x + 1/2. -/
def jsRound (x : ℚ) : Int := ⌊x + 1 / 2⌋

/-- Value of one hexadecimal digit character, or `none`. -/
def hexDigitVal (c : Char) : Option Nat :=
  if '0' ≤ c ∧ c ≤ '9' then some (c.toNat - '0'.toNat)
  else if 'a' ≤ c ∧ c ≤ 'f' then some (c.toNat - 'a'.toNat + 10)
  else if 'A' ≤ c ∧ c ≤ 'F' then some (c.toNat - 'A'.toNat + 10)
  else none

/-- Accumulating hexadecimal parse of a character list. -/
def parseHexList : List Char → Nat → Option Nat
  | [], acc => some acc
  | c :: cs, acc =>
    match hexDigitVal c with
    | some d => parseHexList cs (acc * 16 + d)
    | none => none

/-- JavaScript parseInt(s, 16) restricted to nonempty strings of hex
digits, the only inputs that occur in the source (invoice ids are produced
by crypto.randomBytes(8).toString of base hex, so every 4-character slice
is such a string); other inputs are mapped to `none` where the source
would produce NaN or a prefix parse. -/
def parseInt16 (s : String) : Option Nat :=
  if s.isEmpty then none else parseHexList s.toList 0

/-- An invoice record of the payment module (lines 53-67). `amount` is the
quoted USDC amount in dollars, `amount_raw` the same amount in atomic
units (6 decimals). -/
structure Invoice where
  id : String
  plan : String
  email : Option String
  amount : ℚ
  amount_raw : Int
  status : InvoiceStatus
  wallet : String
  created_at : Nat
  expires_at : Nat
  paid_at : Option Nat
  tx_hash : Option String
  api_key : Option String
  deriving Repr, DecidableEq

/-- createInvoice (payment module lines 39-71). The random invoice id and
the creation time are passed explicitly. Returns `none` where the source
throws (unknown plan) or where parseInt would not see a hex string (never
reached for ids produced by the source). -/
def createInvoice (plan : String) (email : Option String)
    (invoiceId : String) (now : Nat) : Option Invoice :=
  match PLANS plan with
  | none => none
  | some planData =>
    match parseInt16 (invoiceId.take 4) with
    | none => none
    | some h =>
      let offset : ℚ := ((h % 99 + 1 : ℕ) : ℚ) / 100
      let amount : ℚ := planData.price + offset
      let roundedAmount : ℚ := (jsRound (amount * 100) : ℚ) / 100
      some
        { id := invoiceId
          plan := plan
          email := email
          amount := roundedAmount
          amount_raw := jsRound (roundedAmount * 1000000)
          status := .pending
          wallet := WALLET_ADDRESS
          created_at := now
          expires_at := now + 3600000
          paid_at := none
          tx_hash := none
          api_key := none }

/-- One USDC Transfer event log addressed to the receiving wallet, after
the source has decoded it: `data` is the transferred amount in atomic
units (parseInt of the data field), `transactionHash` the transaction. -/
structure Transfer where
  data : Nat
  transactionHash : String
  deriving Repr, DecidableEq

/-- checkPayment (payment module lines 76-129). The chain query is passed
as its observed result: `Except.error` models a thrown RPC error, which
the source catches, logs and falls through from, returning the invoice
unchanged; `Except.ok logs` is the decoded list of transfers to the
receiving wallet in the lookback block range. The random suffix of the
generated API key is passed as `freshKey`, and the current time as `now`. -/
def checkPayment (inv : Invoice) (now : Nat)
    (chain : Except String (List Transfer)) (freshKey : String) : Invoice :=
  if inv.status = .paid then inv
  else if inv.expires_at < now then { inv with status := .expired }
  else
    match chain with
    | .error _ => inv
    | .ok logs =>
      match logs.find? (fun l => ((l.data : Int) - inv.amount_raw).natAbs < 1000) with
      | some l =>
        { inv with
            status := .paid
            tx_hash := some l.transactionHash
            paid_at := some now
            api_key := some ("pro_" ++ freshKey) }
      | none => inv

/-- A sequence of checkPayment calls on one invoice: each element carries
the call time, the chain observation and the fresh key material. -/
def runChecks (inv : Invoice) : List (Nat × Except String (List Transfer) × String) → Invoice
  | [] => inv
  | c :: cs => runChecks (checkPayment inv c.1 c.2.1 c.2.2) cs

/-- Lookup in the apiKeys object, modelled as an association list. -/
def lookupKey (m : List (String × KeyData)) (k : String) : Option KeyData :=
  (m.find? (fun e => e.1 = k)).map (fun e => e.2)

/-- The response body of GET /api/subscribe for one invoice (the fields
the claims are about). -/
structure SubscribeResponse where
  invoice_id : String
  status : InvoiceStatus
  api_key : Option String
  tx_hash : Option String
  deriving Repr, DecidableEq

/-- The GET /api/subscribe invoice-check handler (server.js lines 703-749):
runs checkPayment, and if the invoice is paid registers the issued key in
the apiKeys store (tier and limit from the PLANS entry of the invoice
plan, zero usage, current month as period tag) unless already registered.
The unknown-plan arm is unreachable for invoices made by createInvoice;
there the source would fail with a type error, modelled as no
registration. -/
def subscribeCheckHandler (apiKeys : List (String × KeyData)) (inv : Invoice)
    (now : Nat) (chain : Except String (List Transfer)) (freshKey : String)
    (currentMonth : String) :
    SubscribeResponse × Invoice × List (String × KeyData) :=
  let inv := checkPayment inv now chain freshKey
  if inv.status = .paid then
    let apiKeys :=
      match inv.api_key with
      | some key =>
        if (lookupKey apiKeys key).isNone then
          match PLANS inv.plan with
          | some planData =>
            (key,
              { name := inv.email.getD inv.plan
                tier := inv.plan
                limit := planData.limit
                used := 0
                resetMonth := currentMonth }) :: apiKeys
          | none => apiKeys
        else apiKeys
      | none => apiKeys
    ({ invoice_id := inv.id, status := inv.status,
       api_key := inv.api_key, tx_hash := inv.tx_hash }, inv, apiKeys)
  else
    ({ invoice_id := inv.id, status := inv.status,
       api_key := none, tx_hash := none }, inv, apiKeys)

/-! ## x402 micropayment gate (x402 module) -/

/-- Price requirement data of one configured route (x402 module,
createRouteConfig): the price string and the receiving address. -/
structure RouteConfig where
  price : String
  payTo : String
  description : String
  mimeType : String
  deriving Repr, DecidableEq

/-- createRouteConfig (x402 module lines 41-53), keeping the fields the
admission layer depends on. -/
def createRouteConfig (price description mimeType : String) : RouteConfig :=
  { price := price
    payTo := WALLET_ADDRESS
    description := description
    mimeType := mimeType }

/-- PRICES.capture (x402 module line 11). -/
def PRICES_capture : String := "$0.01"

/-- PRICES.md2pdf (x402 module line 12). -/
def PRICES_md2pdf : String := "$0.005"

/-- PRICES.md2png (x402 module line 13). -/
def PRICES_md2png : String := "$0.005"

/-- The routes table registered with the x402 resource server (x402 module
lines 63-79), keyed by method and path. -/
def routes : List (String × RouteConfig) :=
  [("GET /api/capture",
      createRouteConfig PRICES_capture "Capture screenshot or PDF from a URL" "image/png"),
   ("POST /api/md2pdf",
      createRouteConfig PRICES_md2pdf "Convert Markdown to PDF" "application/pdf"),
   ("POST /api/md2png",
      createRouteConfig PRICES_md2png "Convert Markdown to PNG image" "image/png")]

/-- The machine-readable payment quote carried by a 402 response: the
price and the receiving address of the route. -/
structure QuoteBody where
  price : String
  payTo : String
  deriving Repr, DecidableEq

/-- Outcome of processHTTPRequest of the external x402 resource-server
library, at its interface boundary. -/
inductive GateOutcome
  | noPaymentRequired
  | paymentError (status : Nat) (body : QuoteBody)
  | paymentVerified (settleOk : Bool)
  | unknown
  deriving Repr, DecidableEq

/-- Modelled from the spec: the x402 resource server of the external
library (not part of this repository) answers a request that carries no
payment header on a route present in the routes table with a 402
payment-error whose body carries the machine-readable price requirement
(price and receiving address) of that route, enabling the caller to retry
with payment attached; a path outside the table needs no payment. -/
def gateNoPaymentOutcome (method path : String) : GateOutcome :=
  match routes.find? (fun rc => rc.1 = method ++ " " ++ path) with
  | some rc => .paymentError 402 { price := rc.2.price, payTo := rc.2.payTo }
  | none => .noPaymentRequired

/-- Result of processPayment of the x402 module: either the request is
allowed (with an optional settle action whose eventual outcome is the
carried flag), or it is denied with a status and an optional quote body. -/
inductive PayResult
  | allowed (settle : Option Bool)
  | denied (status : Nat) (body : Option QuoteBody)
  deriving Repr, DecidableEq

/-- processPayment (x402 module lines 97-143): before initialization every
request is denied with 503; afterwards the library outcome is shaped into
the allowed/denied contract. The settle closure built for a verified
payment never throws (it catches, logs and returns null), so it is
represented by its outcome flag. -/
def processPayment (initialized : Bool) (outcome : GateOutcome) : PayResult :=
  if ¬ initialized then .denied 503 none
  else
    match outcome with
    | .noPaymentRequired => .allowed none
    | .paymentError s b => .denied s (some b)
    | .paymentVerified ok => .allowed (some ok)
    | .unknown => .denied 500 none

/-- The no-credential branch of authenticate (server.js lines 83-95): when
the request carries neither a payment header nor an API key, processPayment
is consulted; a 402 denial is forwarded as the 402 quote response,
anything else produces the 401 denial. Returns the response status and the
quote body when one is sent. -/
def authenticateNoCredential (initialized : Bool) (gate : GateOutcome) :
    Nat × Option QuoteBody :=
  match processPayment initialized gate with
  | .denied s b => if s = 402 then (402, b) else (401, none)
  | .allowed _ => (401, none)

/-! ## The /api/capture request pipeline (server.js lines 435-525)

Each request is modelled as two atomic phases separated by the renderer
call, the only suspension point of the handler that matters to the shared
counters: phase A covers authenticate (period normalization, quota check,
rate-limit check for the key path; a verified payment for the x402 path),
the concurrency busy check, URL validation and the activeTasks increment;
phase B covers everything after the renderer resolves or rejects (usage
increment and persistence, settlement, response, and the activeTasks
decrement in the finally block). Treating each phase as atomic is generous
to the source: the event loop can interleave even more finely. -/

/-- The funding path of a request: an API key, or a verified x402
micropayment whose later settlement succeeds or fails. -/
inductive Funding
  | apiKey
  | x402 (settleSucceeds : Bool)
  deriving Repr, DecidableEq

/-- The target-URL material of a capture request after parsing: whether
the url parameter was present, whether `new URL` accepted it, and the
parsed hostname and protocol. -/
structure CaptureQuery where
  urlPresent : Bool
  parseOk : Bool
  hostname : String
  protocol : String
  deriving Repr, DecidableEq

/-- One inbound /api/capture request: funding path, the clock and month at
its auth step, its target URL material, and whether the renderer call for
it succeeds (the renderer is an external collaborator). -/
structure Request where
  funding : Funding
  now : Nat
  month : String
  query : CaptureQuery
  renderOk : Bool
  deriving Repr, DecidableEq

/-- The outcome of one request, abstracting the HTTP response. For `ok`,
`settleInvoked` records whether the x402 settle closure was called and
`settleOk` its outcome (receipt headers attached). -/
inductive ReqResult
  | ok (settleInvoked : Bool) (settleOk : Bool)
  | authQuota
  | authRate
  | busy
  | missingUrl
  | invalidUrl
  | blockedUrl
  | badProtocol
  | renderFailed
  deriving Repr, DecidableEq

/-- The HTTP status of each outcome as sent by the source. -/
def httpStatus : ReqResult → Nat
  | .ok _ _ => 200
  | .authQuota => 429
  | .authRate => 429
  | .busy => 503
  | .missingUrl => 400
  | .invalidUrl => 400
  | .blockedUrl => 400
  | .badProtocol => 400
  | .renderFailed => 500

/-- Progress of one request through the pipeline. -/
inductive Phase
  | start
  | rendering
  | finished (r : ReqResult)
  deriving Repr, DecidableEq

/-- The shared mutable server state the capture pipeline touches: the
credential under test, its rateLimits entry, the activeTasks counter, and
a count of logged settlement discrepancies (console.error in the settle
closure of the x402 module). -/
structure ServerState where
  keyData : KeyData
  rate : Option RateEntry
  activeTasks : Nat
  settleErrors : Nat
  deriving Repr, DecidableEq

/-- ASCII lowercasing of one character, the effect of the JavaScript
toLowerCase call on the hostname characters that occur (parsed hostnames
are ASCII). -/
def lowerChar (c : Char) : Char :=
  match c with
  | 'A' => 'a' | 'B' => 'b' | 'C' => 'c' | 'D' => 'd' | 'E' => 'e'
  | 'F' => 'f' | 'G' => 'g' | 'H' => 'h' | 'I' => 'i' | 'J' => 'j'
  | 'K' => 'k' | 'L' => 'l' | 'M' => 'm' | 'N' => 'n' | 'O' => 'o'
  | 'P' => 'p' | 'Q' => 'q' | 'R' => 'r' | 'S' => 's' | 'T' => 't'
  | 'U' => 'u' | 'V' => 'v' | 'W' => 'w' | 'X' => 'x' | 'Y' => 'y'
  | 'Z' => 'z'
  | c => c

/-- JavaScript toLowerCase over a hostname string. -/
def toLowerJS (s : String) : String :=
  ⟨s.data.map lowerChar⟩

/-- JavaScript String startsWith over the underlying characters. -/
def startsWithJS (s p : String) : Bool :=
  p.data.isPrefixOf s.data

/-- The private/internal hostname block list (server.js lines 460-464),
applied to the lowercased parsed hostname. -/
def blockedHostname (rawHost : String) : Bool :=
  let hostname := toLowerJS rawHost
  hostname = "localhost" || hostname = "127.0.0.1" || hostname = "0.0.0.0" ||
  startsWithJS hostname "192.168." || startsWithJS hostname "10." ||
  startsWithJS hostname "172." ||
  hostname = "::1" || hostname = "metadata.google.internal"

/-- The handler steps after authentication succeeded (server.js lines
441-471): busy check, url presence, URL parse, hostname block list,
protocol allow list, then the activeTasks increment that admits the job. -/
def afterAuth (s : ServerState) (req : Request) : Phase × ServerState :=
  if s.activeTasks ≥ MAX_CONCURRENT then (.finished .busy, s)
  else if ¬ req.query.urlPresent then (.finished .missingUrl, s)
  else if ¬ req.query.parseOk then (.finished .invalidUrl, s)
  else if blockedHostname req.query.hostname then (.finished .blockedUrl, s)
  else if ¬ (req.query.protocol = "http:" ∨ req.query.protocol = "https:") then
    (.finished .badProtocol, s)
  else (.rendering, { s with activeTasks := s.activeTasks + 1 })

/-- Phase A of a request: authenticate (server.js lines 71-113) followed
by the pre-renderer handler steps. The key path normalizes the period,
checks the quota (denied when used has reached the limit), then the rate
limit (both checks mutate only their own record); the x402 path reaches
the handler with a verified payment. -/
def stepA (s : ServerState) (req : Request) : Phase × ServerState :=
  match req.funding with
  | .apiKey =>
    let kd := resetMonthlyUsage s.keyData req.month
    let s := { s with keyData := kd }
    if kd.used ≥ kd.limit then (.finished .authQuota, s)
    else
      let r := checkRateLimit s.rate req.now
      let s := { s with rate := some r.2 }
      if ¬ r.1 then (.finished .authRate, s)
      else afterAuth s req
  | .x402 _ => afterAuth s req

/-- Phase B of a request (server.js lines 472-523): on renderer success
the key path increments the usage counter and persists, the x402 path
invokes settle (a settlement failure is logged, not surfaced); on renderer
failure a 500 is sent and nothing is charged or settled. The finally
block decrements activeTasks on every path. -/
def stepB (s : ServerState) (req : Request) : ReqResult × ServerState :=
  if req.renderOk then
    let s :=
      match req.funding with
      | .apiKey => { s with keyData := { s.keyData with used := s.keyData.used + 1 } }
      | .x402 _ => s
    let r :=
      match req.funding with
      | .apiKey => (ReqResult.ok false false, s)
      | .x402 ok =>
        (ReqResult.ok true ok, if ok then s else { s with settleErrors := s.settleErrors + 1 })
    (r.1, { r.2 with activeTasks := r.2.activeTasks - 1 })
  else
    (.renderFailed, { s with activeTasks := s.activeTasks - 1 })

/-- One scheduler step of a single request: a request at `start` runs
phase A; an admitted request runs phase B; a finished request does
nothing. -/
def stepReq : Request × Phase → ServerState → (Request × Phase) × ServerState
  | (r, .start), s =>
    let p := stepA s r
    ((r, p.1), p.2)
  | (r, .rendering), s =>
    let p := stepB s r
    ((r, .finished p.1), p.2)
  | (r, .finished x), s => ((r, .finished x), s)

/-- A system of concurrent capture requests over the shared server
state. -/
structure Sys where
  server : ServerState
  reqs : List (Request × Phase)
  deriving Repr, DecidableEq

/-- Run one step of the request at position `i` (no-op when out of
range). -/
def sysStep (sys : Sys) (i : Nat) : Sys :=
  match sys.reqs[i]? with
  | none => sys
  | some rp =>
    let p := stepReq rp sys.server
    { server := p.2, reqs := sys.reqs.set i p.1 }

/-- Run a whole interleaving schedule, given as the list of request
positions in execution order. -/
def runSched (sys : Sys) : List Nat → Sys
  | [] => sys
  | i :: rest => runSched (sysStep sys i) rest

/-- The number of requests currently holding a concurrency slot. -/
def countRendering (reqs : List (Request × Phase)) : Nat :=
  reqs.countP (fun rp => rp.2 = Phase.rendering)

/-- Whether a request has finished. -/
def isFinished : Phase → Bool
  | .finished _ => true
  | _ => false

/-- One request run to completion with no interleaving: phase A, then
phase B when admitted. -/
def runJob (s : ServerState) (req : Request) : ReqResult × ServerState :=
  match stepA s req with
  | (.rendering, s) => stepB s req
  | (.finished r, s) => (r, s)
  | (.start, s) => (.renderFailed, s)

/-- A well-formed API-key capture request at time `t`: valid public
target URL, renderer succeeds. -/
def benignReq (t : Nat) (month : String) : Request :=
  { funding := .apiKey
    now := t
    month := month
    query :=
      { urlPresent := true
        parseOk := true
        hostname := "example.com"
        protocol := "https:" }
    renderOk := true }

/-- `n` sequential benign capture jobs against one credential, spaced
`gap` milliseconds apart starting at time `t`. -/
def runJobs (s : ServerState) (month : String) (t gap : Nat) : Nat → List ReqResult × ServerState
  | 0 => ([], s)
  | n + 1 =>
    let r := runJob s (benignReq t month)
    let rest := runJobs r.2 month (t + gap) gap n
    (r.1 :: rest.1, rest.2)

/-- The concurrency invariant of the capture pipeline: the activeTasks
counter equals the number of requests currently holding a slot and never
exceeds MAX_CONCURRENT. -/
def SysInv (sys : Sys) : Prop :=
  sys.server.activeTasks = countRendering sys.reqs ∧
  sys.server.activeTasks ≤ MAX_CONCURRENT

/-! ## Concrete instances used by the witnesses -/

/-- A concrete pending invoice: pro plan, quote 10.01, created at time 0,
expiring at time 3600000. -/
def invC : Invoice :=
  { id := "0000deadbeef0000"
    plan := "pro"
    email := none
    amount := 1001 / 100
    amount_raw := 10010000
    status := .pending
    wallet := WALLET_ADDRESS
    created_at := 0
    expires_at := 3600000
    paid_at := none
    tx_hash := none
    api_key := none }

/-- A transfer whose amount exactly matches the concrete invoice. -/
def transferC : Transfer :=
  { data := 10010000, transactionHash := "0xabc" }

/-- A concrete credential with monthly limit 1 and no usage. -/
def kdC : KeyData :=
  { name := "demo", tier := "free", limit := 1, used := 0, resetMonth := "m" }

/-- The server state at the start of the race run: the limit-1 credential,
fresh rate window, no active tasks. -/
def s0C : ServerState :=
  { keyData := kdC, rate := none, activeTasks := 0, settleErrors := 0 }

/-- Two concurrent well-formed API-key requests against the limit-1
credential. -/
def raceSys : Sys :=
  { server := s0C
    reqs := [(benignReq 0 "m", .start), (benignReq 0 "m", .start)] }

/-- A server state with all three concurrency slots taken. -/
def busyStateC : ServerState :=
  { keyData := kdC, rate := none, activeTasks := 3, settleErrors := 0 }

/-- A concrete x402-funded capture request whose render succeeds but whose
settlement fails, at time 0. -/
def x402FailSettleReqC : Request :=
  { funding := .x402 false
    now := 0
    month := "m"
    query :=
      { urlPresent := true, parseOk := true,
        hostname := "example.com", protocol := "https:" }
    renderOk := true }

/-- A concrete API-key request whose renderer call fails. -/
def renderFailReqC : Request :=
  { funding := .apiKey
    now := 0
    month := "m"
    query :=
      { urlPresent := true, parseOk := true,
        hostname := "example.com", protocol := "https:" }
    renderOk := false }

/-- A concrete request whose target URL points at localhost. -/
def ssrfReqC : Request :=
  { funding := .x402 true
    now := 0
    month := "m"
    query :=
      { urlPresent := true, parseOk := true,
        hostname := "localhost", protocol := "http:" }
    renderOk := true }

/-! ## Theorems -/

theorem runRate_append (st : Option RateEntry) (xs ys : List Nat) :
    runRate st (xs ++ ys)
      = ((runRate st xs).1 ++ (runRate (runRate st xs).2 ys).1,
         (runRate (runRate st xs).2 ys).2) := by
  induction xs generalizing st with
  | nil => simp [runRate]
  | cons t ts ih => simp [runRate, ih]

/-- Calls that stay inside the window neither reset the counter nor move
the window start: each call increments the count by one and is allowed
exactly while the incremented count is at most 10. -/
theorem runRate_within (w c : Nat) (ts : List Nat)
    (h : ∀ t ∈ ts, t - w ≤ RATE_LIMIT_WINDOW) :
    runRate (some ⟨c, w⟩) ts
      = ((List.range ts.length).map (fun i => decide (c + i + 1 ≤ 10)),
         some ⟨c + ts.length, w⟩) := by
  induction ts generalizing c with
  | nil => simp [runRate]
  | cons t ts ih =>
    have ht : ¬ t - w > RATE_LIMIT_WINDOW := by
      have := h t (List.mem_cons_self t ts)
      omega
    have step : checkRateLimit (some ⟨c, w⟩) t = (decide (c + 1 ≤ 10), ⟨c + 1, w⟩) := by
      simp [checkRateLimit, ht]
    have ih' := ih (c + 1) (fun t ht' => h t (List.mem_cons_of_mem _ ht'))
    simp only [runRate, step, ih', List.length_cons, Prod.mk.injEq]
    refine ⟨?_, ?_⟩
    · rw [List.range_succ_eq_map, List.map_cons, List.map_map]
      refine congrArg₂ List.cons (by simp) ?_
      apply List.map_congr_left
      intro i _
      simp only [Function.comp, decide_eq_decide]
      omega
    · have hc : c + 1 + ts.length = c + (ts.length + 1) := by omega
      rw [hc]

/-- C3: for a fresh credential key, 11 rate-limit checks whose times all
lie within one window of the first call return allow for calls 1 through
10 and deny the 11th (the crossing call is rejected but still counted),
and a later call whose distance from the window start exceeds the window
duration resets the counter and is allowed again. -/
theorem rateLimit_eleven_calls_then_reset (t0 t' : Nat) (ts : List Nat)
    (hlen : ts.length = 10)
    (hin : ∀ t ∈ ts, t - t0 ≤ RATE_LIMIT_WINDOW)
    (hout : t' - t0 > RATE_LIMIT_WINDOW) :
    (runRate none (t0 :: (ts ++ [t']))).1
      = List.replicate 10 true ++ [false, true] := by
  have first : checkRateLimit none t0 = (true, ⟨1, t0⟩) := by
    simp [checkRateLimit, RATE_LIMIT_WINDOW]
  have mid := runRate_within t0 1 ts hin
  have step' : checkRateLimit (some ⟨1 + 10, t0⟩) t' = (true, ⟨1, t'⟩) := by
    simp [checkRateLimit, hout]
  simp only [runRate, first, runRate_append, mid, hlen, step']
  decide

/-- Witness for C3 at concrete times: 11 calls at times 0 through 10 on a
fresh key, then one at 60001 milliseconds. -/
theorem rateLimit_eleven_calls_then_reset_witness :
    (runRate none
        (0 :: ([1, 2, 3, 4, 5, 6, 7, 8, 9, 10] ++ [60001]))).1
      = List.replicate 10 true ++ [false, true] :=
  rateLimit_eleven_calls_then_reset 0 60001 [1, 2, 3, 4, 5, 6, 7, 8, 9, 10]
    (by decide) (by decide) (by decide)

theorem floor_half_q : ⌊(1 : ℚ) / 2⌋ = 0 := by
  rw [Int.floor_eq_zero_iff, Set.mem_Ico]
  norm_num

/-- jsRound maps an integer plus the half used for rounding back to that
integer. -/
theorem jsRound_intCast (z : ℤ) : jsRound (z : ℚ) = z := by
  unfold jsRound
  rw [Int.floor_int_add, floor_half_q, add_zero]

/-- The 100-fold of the pro quote is the integer 1000 + n, so rounding is
the identity there. -/
theorem proQuote_times100 (n : ℕ) :
    jsRound (((10 : ℚ) + (n : ℚ) / 100) * 100) = 1000 + (n : ℤ) := by
  have key : ((10 : ℚ) + (n : ℚ) / 100) * 100 = ((1000 + (n : ℤ) : ℤ) : ℚ) := by
    push_cast
    ring
  rw [key, jsRound_intCast]

/-- Dividing the rounded cent value back by 100 recovers the exact quote. -/
theorem proQuote_round (n : ℕ) :
    ((jsRound (((10 : ℚ) + (n : ℚ) / 100) * 100) : ℤ) : ℚ) / 100
      = 10 + (n : ℚ) / 100 := by
  rw [proQuote_times100]
  push_cast
  ring

/-- The atomic-unit conversion of the rounded pro quote. -/
theorem proQuote_raw (n : ℕ) :
    jsRound (((jsRound (((10 : ℚ) + (n : ℚ) / 100) * 100) : ℤ) : ℚ) / 100 * 1000000)
      = 10000000 + 10000 * (n : ℤ) := by
  rw [proQuote_times100]
  have key : ((1000 + (n : ℤ) : ℤ) : ℚ) / 100 * 1000000
      = (((10000000 + 10000 * (n : ℤ) : ℤ)) : ℚ) := by
    push_cast
    ring
  rw [key, jsRound_intCast]

/-- C9: an invoice created for plan pro (base price 10.00) quotes
10.00 plus the offset ((value of the first 4 hex digits of the id)
mod 99 + 1) / 100, already exact at 2 decimal places so unchanged by the
rounding step, and its amount in atomic units is that amount times 1e6,
an integer in the interval from 10000000 to 10990000. -/
theorem pro_invoice_amount (id : String) (email : Option String) (now h : Nat)
    (hparse : parseInt16 (id.take 4) = some h) :
    ∃ inv, createInvoice "pro" email id now = some inv ∧
      inv.amount = 10 + ((h % 99 + 1 : ℕ) : ℚ) / 100 ∧
      inv.amount_raw = 10000000 + 10000 * ((h % 99 + 1 : ℕ) : ℤ) ∧
      10000000 ≤ inv.amount_raw ∧ inv.amount_raw ≤ 10990000 := by
  have hpro : PLANS "pro" = some { price := 10, limit := 1000, name := "Pro" } := rfl
  simp only [createInvoice, hpro, hparse]
  refine ⟨_, rfl, ?_, ?_, ?_, ?_⟩ <;> dsimp only
  · exact proQuote_round (h % 99 + 1)
  · exact proQuote_raw (h % 99 + 1)
  · rw [proQuote_raw (h % 99 + 1)]
    omega
  · rw [proQuote_raw (h % 99 + 1)]
    omega

/-- Witness for C9 at a concrete invoice id whose first 4 hex digits have
value 0 (offset 0.01): the quote is 10.01 and the atomic amount is
10010000. -/
theorem pro_invoice_amount_witness :
    ∃ inv, createInvoice "pro" none "0000deadbeef0000" 0 = some inv ∧
      inv.amount = 10 + ((0 % 99 + 1 : ℕ) : ℚ) / 100 ∧
      inv.amount_raw = 10000000 + 10000 * ((0 % 99 + 1 : ℕ) : ℤ) ∧
      10000000 ≤ inv.amount_raw ∧ inv.amount_raw ≤ 10990000 :=
  pro_invoice_amount "0000deadbeef0000" none 0 0 (by decide)

theorem checkPayment_expires_at (inv : Invoice) (t : Nat)
    (ch : Except String (List Transfer)) (k : String) :
    (checkPayment inv t ch k).expires_at = inv.expires_at := by
  unfold checkPayment
  split_ifs
  · rfl
  · rfl
  · cases ch with
    | error e => rfl
    | ok logs =>
      dsimp only
      cases logs.find? (fun l => ((l.data : Int) - inv.amount_raw).natAbs < 1000) with
      | none => rfl
      | some l => rfl

theorem checkPayment_of_paid (inv : Invoice) (t : Nat)
    (ch : Except String (List Transfer)) (k : String)
    (hs : inv.status = .paid) : checkPayment inv t ch k = inv := by
  simp [checkPayment, hs]

theorem checkPayment_pending_expiry (inv : Invoice) (t : Nat)
    (ch : Except String (List Transfer)) (k : String)
    (hs : inv.status = .pending) (hexp : inv.expires_at < t) :
    checkPayment inv t ch k = { inv with status := .expired } := by
  simp [checkPayment, hs, hexp]

theorem checkPayment_expired_stays (inv : Invoice) (t : Nat)
    (ch : Except String (List Transfer)) (k : String)
    (hs : inv.status = .expired) (hexp : inv.expires_at < t) :
    (checkPayment inv t ch k).status = .expired := by
  simp [checkPayment, hs, hexp]

theorem checkPayment_pending_source (inv : Invoice) (t : Nat)
    (ch : Except String (List Transfer)) (k : String)
    (h : (checkPayment inv t ch k).status = .pending) :
    inv.status = .pending := by
  cases hs : inv.status with
  | pending => rfl
  | paid =>
    rw [checkPayment_of_paid inv t ch k hs, hs] at h
    exact absurd h (by simp)
  | expired =>
    simp only [checkPayment, hs, reduceCtorEq, if_false] at h
    split_ifs at h with h1
    cases ch with
    | error e => simp [hs] at h
    | ok logs =>
      dsimp only at h
      split at h
      · simp at h
      · simp [hs] at h

theorem runChecks_expired (inv : Invoice)
    (checks : List (Nat × Except String (List Transfer) × String))
    (hs : inv.status = .expired)
    (h : ∀ c ∈ checks, inv.expires_at < c.1) :
    (runChecks inv checks).status = .expired := by
  induction checks generalizing inv with
  | nil => simpa [runChecks] using hs
  | cons c cs ih =>
    have hexp := h c (List.mem_cons_self c cs)
    have hstep := checkPayment_expired_stays inv c.1 c.2.1 c.2.2 hs hexp
    have hexpat := checkPayment_expires_at inv c.1 c.2.1 c.2.2
    simp only [runChecks]
    refine ih _ hstep fun d hd => ?_
    rw [hexpat]
    exact h d (List.mem_cons_of_mem c hd)

/-- C8: invoice status transitions are monotone. A paid invoice is
unchanged by any later check; a pending invoice whose expiry is in the
past becomes expired when checked; an expired invoice whose expiry is
in the past stays expired across any sequence of later checks, whatever
transfers the chain shows; and no check ever moves an invoice back to
pending. -/
theorem invoice_status_transitions (inv : Invoice) (t : Nat)
    (ch : Except String (List Transfer)) (k : String)
    (checks : List (Nat × Except String (List Transfer) × String)) :
    (inv.status = .paid → checkPayment inv t ch k = inv) ∧
    (inv.status = .pending → inv.expires_at < t →
        (checkPayment inv t ch k).status = .expired) ∧
    (inv.status = .expired → (∀ c ∈ checks, inv.expires_at < c.1) →
        (runChecks inv checks).status = .expired) ∧
    ((checkPayment inv t ch k).status = .pending → inv.status = .pending) :=
  ⟨checkPayment_of_paid inv t ch k,
   fun hs hexp => by rw [checkPayment_pending_expiry inv t ch k hs hexp],
   runChecks_expired inv checks,
   checkPayment_pending_source inv t ch k⟩

/-- Witness for C8: the concrete pending invoice, checked past its
expiry while the chain shows a transfer matching its amount, becomes
expired anyway. -/
theorem invoice_status_transitions_witness :
    (checkPayment invC 3600001 (.ok [transferC]) "k").status = .expired :=
  (invoice_status_transitions invC 3600001 (.ok [transferC]) "k" []).2.1 rfl (by decide)

/-- C5: a request to a paid (route-configured) endpoint that carries
neither an API key nor a payment header receives a 402 quote whose body
carries the machine-readable price and the receiving wallet address of
that route, and not a hard 401 denial. The response of the external
resource server is taken at its spec-modelled interface
(gateNoPaymentOutcome); the shaping through processPayment and
authenticate is the embedded source. -/
theorem no_credential_gets_quote (method path : String) (rc : String × RouteConfig)
    (hroute : routes.find? (fun e => e.1 = method ++ " " ++ path) = some rc) :
    authenticateNoCredential true (gateNoPaymentOutcome method path)
      = (402, some { price := rc.2.price, payTo := rc.2.payTo }) ∧
    (authenticateNoCredential true (gateNoPaymentOutcome method path)).1 ≠ 401 ∧
    rc.2.payTo = WALLET_ADDRESS := by
  have hmem : rc ∈ routes := List.mem_of_find?_eq_some hroute
  have hwallet : rc.2.payTo = WALLET_ADDRESS := by
    fin_cases hmem <;> rfl
  refine ⟨?_, ?_, hwallet⟩ <;>
    simp [authenticateNoCredential, processPayment, gateNoPaymentOutcome, hroute]

/-- Witness for C5: GET /api/capture with no credential and no payment is
quoted 402 at the capture price, payable to the receiving wallet. -/
theorem no_credential_gets_quote_witness :
    authenticateNoCredential true (gateNoPaymentOutcome "GET" "/api/capture")
      = (402, some { price := "$0.01", payTo := WALLET_ADDRESS }) :=
  (no_credential_gets_quote "GET" "/api/capture"
      ("GET /api/capture",
        createRouteConfig PRICES_capture "Capture screenshot or PDF from a URL" "image/png")
      (by decide)).1

/-- C6: an admitted job whose renderer call fails finishes with the
render-failure error and no charge: the usage counter and the settlement
log are untouched and the result is not a success (so the settle closure
was never invoked, success being the only outcome that carries a
settlement); moreover any phase-B execution that changes the usage
counter or reports an invoked settlement comes from a successful render. -/
theorem render_failure_no_charge (s : ServerState) (req : Request)
    (hfail : req.renderOk = false) :
    (stepB s req = (.renderFailed, { s with activeTasks := s.activeTasks - 1 }) ∧
      (stepB s req).2.keyData.used = s.keyData.used ∧
      (stepB s req).2.settleErrors = s.settleErrors ∧
      ∀ a b, (stepB s req).1 ≠ .ok a b) ∧
    (∀ (s' : ServerState) (req' : Request),
        ((stepB s' req').2.keyData.used ≠ s'.keyData.used ∨
            (∃ b, (stepB s' req').1 = .ok true b)) →
          req'.renderOk = true) := by
  constructor
  · simp [stepB, hfail]
  · intro s' req' h
    by_contra hr
    have hr' : req'.renderOk = false := by
      cases hv : req'.renderOk
      · rfl
      · exact absurd hv hr
    rcases h with h | ⟨b, h⟩ <;> simp [stepB, hr'] at h

/-- Witness for C6: the concrete failing-render request leaves the
limit-1 credential unchanged and yields the render-failure outcome. -/
theorem render_failure_no_charge_witness :
    stepB s0C renderFailReqC
        = (.renderFailed, { s0C with activeTasks := s0C.activeTasks - 1 }) ∧
      (stepB s0C renderFailReqC).2.keyData.used = s0C.keyData.used ∧
      (stepB s0C renderFailReqC).2.settleErrors = s0C.settleErrors ∧
      ∀ a b, (stepB s0C renderFailReqC).1 ≠ .ok a b :=
  (render_failure_no_charge s0C renderFailReqC rfl).1

/-- C7: a micropayment-funded job whose render succeeds but whose
settlement fails still finishes as a 200 success carrying the render
result; the settlement fault only increments the logged-discrepancy
count and is never surfaced as a request error. -/
theorem settlement_failure_still_success (s : ServerState) (req : Request)
    (hx : req.funding = .x402 false) (hr : req.renderOk = true) :
    stepB s req
        = (.ok true false,
           { s with
               settleErrors := s.settleErrors + 1
               activeTasks := s.activeTasks - 1 }) ∧
    httpStatus (stepB s req).1 = 200 := by
  constructor <;> simp [stepB, hx, hr, httpStatus]

/-- Witness for C7 at the concrete x402 request with failing
settlement. -/
theorem settlement_failure_still_success_witness :
    stepB s0C x402FailSettleReqC
        = (.ok true false,
           { s0C with
               settleErrors := s0C.settleErrors + 1
               activeTasks := s0C.activeTasks - 1 }) ∧
    httpStatus (stepB s0C x402FailSettleReqC).1 = 200 :=
  settlement_failure_still_success s0C x402FailSettleReqC rfl rfl

/-- C10: once past authentication, a capture request whose target URL has
a block-listed hostname (localhost, 127.0.0.1, 0.0.0.0, ::1,
metadata.google.internal, or prefixes 192.168., 10., 172.) or a protocol
other than http or https is finished with a 400 error before the
concurrency slot is taken, the server state is untouched, and the
renderer phase is never entered; a finished request is terminal, so the
renderer is never invoked later either. The post-authentication pipeline
afterAuth does not read the funding path, so this holds regardless of
how the request was authenticated or paid. -/
theorem ssrf_urls_rejected (s : ServerState) (req : Request)
    (hactive : s.activeTasks < MAX_CONCURRENT)
    (hurl : req.query.urlPresent = true)
    (hparse : req.query.parseOk = true)
    (hblock : blockedHostname req.query.hostname = true ∨
        ¬ (req.query.protocol = "http:" ∨ req.query.protocol = "https:")) :
    (∃ r, afterAuth s req = (.finished r, s) ∧ httpStatus r = 400) ∧
    (∀ (b : Bool), req.funding = .x402 b → stepA s req = afterAuth s req) ∧
    (∀ (r : ReqResult) (s' : ServerState),
        stepReq (req, .finished r) s' = ((req, .finished r), s')) ∧
    (∀ s' : ServerState, (afterAuth s' req).1 ≠ Phase.rendering) := by
  refine ⟨?_, fun b hb => by simp [stepA, hb], fun r s' => rfl, ?_⟩
  case refine_2 =>
    intro s' hcontra
    unfold afterAuth at hcontra
    split_ifs at hcontra with g1 g2 g3
    all_goals try simp at hcontra
    rcases hblock with hb | hp
    · exact absurd hb (by assumption)
    · exact absurd (by tauto : req.query.protocol = "http:" ∨ req.query.protocol = "https:") hp
  have hactive' : ¬ s.activeTasks ≥ MAX_CONCURRENT := by omega
  rcases hblock with hb | hp
  · exact ⟨.blockedUrl, by simp [afterAuth, hactive', hurl, hparse, hb], rfl⟩
  · by_cases hb : blockedHostname req.query.hostname
    · exact ⟨.blockedUrl, by simp [afterAuth, hactive', hurl, hparse, hb], rfl⟩
    · exact ⟨.badProtocol, by simp [afterAuth, hactive', hurl, hparse, hb, hp], rfl⟩

/-- Witness for C10: a localhost target is finished with a 400
blocked-URL error without entering the renderer phase. -/
theorem ssrf_urls_rejected_witness :
    ∃ r, afterAuth s0C ssrfReqC = (.finished r, s0C) ∧ httpStatus r = 400 :=
  (ssrf_urls_rejected s0C ssrfReqC (by decide) rfl rfl (Or.inl (by decide))).1

/-- C1 fails on the source: the quota check runs in authenticate but the
usage increment runs only after the awaited renderer call, with no lock
in between, so the check-and-increment is not atomic. In this concrete
interleaving two requests funded by a credential with monthly limit 1
both pass the quota check before either increments; both requests
succeed and the used counter ends at 2, exceeding the limit 1. Each
phase of the pipeline is treated as atomic here, which only understates
the interleavings the event loop allows. -/
theorem quota_check_increment_not_atomic :
    ((runSched raceSys [0, 1, 0, 1]).reqs.map (fun rp => rp.2)
        = [.finished (.ok false false), .finished (.ok false false)]) ∧
    (runSched raceSys [0, 1, 0, 1]).server.keyData.used = 2 ∧
    (runSched raceSys [0, 1, 0, 1]).server.keyData.limit = 1 := by
  decide

theorem countP_set_eq {α : Type} (p : α → Bool) (l : List α) (i : Nat) (a : α)
    (h : i < l.length) :
    (l.set i a).countP p + (if p l[i] then 1 else 0)
      = l.countP p + (if p a then 1 else 0) := by
  induction l generalizing i with
  | nil => simp at h
  | cons x xs ih =>
    cases i with
    | zero =>
      simp only [List.set_cons_zero, List.getElem_cons_zero, List.countP_cons]
      omega
    | succ n =>
      have h' : n < xs.length := by simpa using h
      have H := ih n h'
      simp only [List.set_cons_succ, List.getElem_cons_succ, List.countP_cons]
      omega

theorem afterAuth_cases (s : ServerState) (req : Request) :
    (afterAuth s req = (.rendering, { s with activeTasks := s.activeTasks + 1 }) ∧
      s.activeTasks < MAX_CONCURRENT) ∨
    (∃ r, afterAuth s req = (.finished r, s)) := by
  unfold afterAuth
  split_ifs with h1 h2 h3 h4 h5
  all_goals
    first
      | exact Or.inl ⟨rfl, by omega⟩
      | exact Or.inr ⟨_, rfl⟩

theorem stepA_cases (s : ServerState) (req : Request) :
    ((stepA s req).1 = .rendering ∧
      (stepA s req).2.activeTasks = s.activeTasks + 1 ∧
      s.activeTasks < MAX_CONCURRENT) ∨
    ((∃ r, (stepA s req).1 = .finished r) ∧
      (stepA s req).2.activeTasks = s.activeTasks) := by
  have main : ∀ s' : ServerState, s'.activeTasks = s.activeTasks →
      ((afterAuth s' req).1 = .rendering ∧
        (afterAuth s' req).2.activeTasks = s.activeTasks + 1 ∧
        s.activeTasks < MAX_CONCURRENT) ∨
      ((∃ r, (afterAuth s' req).1 = .finished r) ∧
        (afterAuth s' req).2.activeTasks = s.activeTasks) := by
    intro s' hs'
    rcases afterAuth_cases s' req with ⟨ha, hlt⟩ | ⟨r, ha⟩
    · exact Or.inl ⟨by rw [ha], by rw [ha]; simp [hs'], by omega⟩
    · exact Or.inr ⟨⟨r, by rw [ha]⟩, by rw [ha, hs']⟩
  cases hf : req.funding with
  | apiKey =>
    simp only [stepA, hf]
    split_ifs with h1 h2
    all_goals
      first
        | exact Or.inr ⟨⟨_, rfl⟩, rfl⟩
        | exact main _ rfl
  | x402 b =>
    simp only [stepA, hf]
    exact main _ rfl

theorem stepB_active (s : ServerState) (req : Request) :
    (stepB s req).2.activeTasks = s.activeTasks - 1 := by
  cases hf : req.funding with
  | apiKey => by_cases hr : req.renderOk <;> simp [stepB, hf, hr]
  | x402 b =>
    cases b <;> by_cases hr : req.renderOk <;> simp [stepB, hf, hr]

theorem sysStep_SysInv (sys : Sys) (i : Nat) (h : SysInv sys) :
    SysInv (sysStep sys i) := by
  unfold sysStep
  cases hi : sys.reqs[i]? with
  | none => exact h
  | some rp =>
    obtain ⟨rq, ph⟩ := rp
    obtain ⟨hlen, hget⟩ := List.getElem?_eq_some.1 hi
    obtain ⟨hcount, hbound⟩ := h
    have hmem : (rq, ph) ∈ sys.reqs := hget ▸ sys.reqs.getElem_mem hlen
    have hset := countP_set_eq (fun rp => rp.2 = Phase.rendering) sys.reqs i
    cases ph with
    | start =>
      have hset' := hset ((rq, (stepA sys.server rq).1), (stepA sys.server rq).2).1 hlen
      rw [hget] at hset'
      rcases stepA_cases sys.server rq with ⟨hph, hact, hlt⟩ | ⟨⟨r, hph⟩, hact⟩
      · refine ⟨?_, ?_⟩ <;>
          simp only [stepReq, countRendering, hph, hact] at *
        · simp only [decide_eq_true_eq] at hset'
          simp at hset'
          omega
        · omega
      · refine ⟨?_, ?_⟩ <;>
          simp only [stepReq, countRendering, hph, hact] at *
        · simp only [decide_eq_true_eq] at hset'
          simp [hph] at hset'
          omega
        · omega
    | rendering =>
      have hpos : 0 < sys.reqs.countP (fun rp => rp.2 = Phase.rendering) := by
        rw [List.countP_pos_iff]
        exact ⟨(rq, .rendering), hmem, by simp⟩
      have hset' := hset ((rq, Phase.finished (stepB sys.server rq).1),
        (stepB sys.server rq).2).1 hlen
      rw [hget] at hset'
      have hact := stepB_active sys.server rq
      refine ⟨?_, ?_⟩ <;>
        simp only [stepReq, countRendering] at *
      · simp at hset'
        omega
      · omega
    | finished r =>
      have hset' := hset ((rq, Phase.finished r), sys.server).1 hlen
      rw [hget] at hset'
      refine ⟨?_, ?_⟩ <;>
        simp only [stepReq, countRendering] at *
      · simp at hset'
        omega
      · omega

theorem runSched_SysInv (sys : Sys) (sched : List Nat) (h : SysInv sys) :
    SysInv (runSched sys sched) := by
  induction sched generalizing sys with
  | nil => exact h
  | cons i rest ih => exact ih _ (sysStep_SysInv sys i h)

theorem SysInv_all_finished (sys : Sys) (h : SysInv sys)
    (hf : ∀ rp ∈ sys.reqs, isFinished rp.2) :
    sys.server.activeTasks = 0 := by
  have hzero : countRendering sys.reqs = 0 := by
    unfold countRendering
    rw [List.countP_eq_zero]
    intro rp hrp
    have hfin := hf rp hrp
    cases hph : rp.2 <;> simp [isFinished, hph] at hfin ⊢
  rw [h.1, hzero]

/-- C4: concurrency admission for the capture pipeline. Along any
interleaving schedule the activeTasks counter equals the number of
requests holding a slot and never exceeds MAX_CONCURRENT = 3; a request
that has passed its funding check while all three slots are taken is
finished immediately with the retryable 503 Busy error and the server
state completely unchanged (no queueing, no charge, no slot); and
whenever every request of a run has finished, the counter is back at
zero, so every admitted job, including those whose renderer threw,
released its slot exactly once. -/
theorem concurrency_admission_control (sys : Sys) (sched : List Nat)
    (s : ServerState) (req : Request) :
    (SysInv sys → SysInv (runSched sys sched)) ∧
    (SysInv sys → (runSched sys sched).server.activeTasks ≤ MAX_CONCURRENT) ∧
    (s.activeTasks ≥ MAX_CONCURRENT →
        afterAuth s req = (.finished .busy, s) ∧ httpStatus .busy = 503) ∧
    (SysInv sys → (∀ rp ∈ (runSched sys sched).reqs, isFinished rp.2) →
        (runSched sys sched).server.activeTasks = 0) :=
  ⟨runSched_SysInv sys sched,
   fun h => (runSched_SysInv sys sched h).2,
   fun hb => ⟨by simp [afterAuth, hb], rfl⟩,
   fun h hf => SysInv_all_finished _ (runSched_SysInv sys sched h) hf⟩

/-- Witness for C4: the two-request race system satisfies the invariant
after its schedule, and a fourth request arriving with all three slots
taken is finished Busy with the state unchanged. -/
theorem concurrency_admission_control_witness :
    SysInv (runSched raceSys [0, 1, 0, 1]) ∧
    afterAuth busyStateC (benignReq 0 "m") = (.finished .busy, busyStateC) := by
  have h := concurrency_admission_control raceSys [0, 1, 0, 1] busyStateC (benignReq 0 "m")
  exact ⟨h.1 ⟨by decide, by decide⟩, (h.2.2.1 (by decide)).1⟩

theorem checkPayment_pending_match (inv : Invoice) (now : Nat) (logs : List Transfer)
    (tr : Transfer) (freshKey : String)
    (hpend : inv.status = .pending) (hexp : ¬ inv.expires_at < now)
    (hfound : logs.find? (fun l => ((l.data : Int) - inv.amount_raw).natAbs < 1000)
        = some tr) :
    checkPayment inv now (.ok logs) freshKey
      = { inv with
            status := .paid
            tx_hash := some tr.transactionHash
            paid_at := some now
            api_key := some ("pro_" ++ freshKey) } := by
  simp [checkPayment, hpend, hexp, hfound]

theorem checkRateLimit_resets (st : Option RateEntry) (t : Nat)
    (h : ∀ e, st = some e → e.windowStart + RATE_LIMIT_WINDOW < t) :
    checkRateLimit st t = (true, ⟨1, t⟩) := by
  cases st with
  | none => simp [checkRateLimit, RATE_LIMIT_WINDOW]
  | some e =>
    have he := h e rfl
    have hgt : t - e.windowStart > RATE_LIMIT_WINDOW := by omega
    simp [checkRateLimit, hgt]

theorem runJob_benign (s : ServerState) (month : String) (t : Nat)
    (hmonth : s.keyData.resetMonth = month)
    (hq : s.keyData.used < s.keyData.limit)
    (ha : s.activeTasks < MAX_CONCURRENT)
    (hrate : ∀ e, s.rate = some e → e.windowStart + RATE_LIMIT_WINDOW < t) :
    runJob s (benignReq t month)
      = (.ok false false,
         { s with
             keyData := { s.keyData with used := s.keyData.used + 1 }
             rate := some ⟨1, t⟩ }) := by
  have hrl := checkRateLimit_resets s.rate t hrate
  have hkd : resetMonthlyUsage s.keyData month = s.keyData := by
    simp [resetMonthlyUsage, hmonth]
  have h1 : ¬ s.keyData.used ≥ s.keyData.limit := by omega
  have h2 : ¬ s.activeTasks ≥ MAX_CONCURRENT := by omega
  have h3 : blockedHostname "example.com" = false := by decide
  simp [runJob, stepA, benignReq, hkd, hrl, h1, afterAuth, h2, h3, stepB,
    Nat.add_sub_cancel]

theorem runJob_quota (s : ServerState) (month : String) (t : Nat)
    (hmonth : s.keyData.resetMonth = month)
    (hq : s.keyData.limit ≤ s.keyData.used) :
    runJob s (benignReq t month) = (.authQuota, s) := by
  have hkd : resetMonthlyUsage s.keyData month = s.keyData := by
    simp [resetMonthlyUsage, hmonth]
  have h1 : s.keyData.used ≥ s.keyData.limit := hq
  simp [runJob, stepA, benignReq, hkd, h1]

theorem runJobs_all_ok (gap : Nat) (hgap : RATE_LIMIT_WINDOW < gap) (month : String) :
    ∀ (n : Nat) (s : ServerState) (t : Nat),
      s.keyData.resetMonth = month →
      s.keyData.used + n ≤ s.keyData.limit →
      s.activeTasks < MAX_CONCURRENT →
      (∀ e, s.rate = some e → e.windowStart + RATE_LIMIT_WINDOW < t) →
      (runJobs s month t gap n).1 = List.replicate n (ReqResult.ok false false) ∧
      (runJobs s month t gap n).2.keyData.used = s.keyData.used + n ∧
      (runJobs s month t gap n).2.keyData.limit = s.keyData.limit ∧
      (runJobs s month t gap n).2.keyData.resetMonth = month ∧
      (runJobs s month t gap n).2.activeTasks = s.activeTasks ∧
      (∀ e, (runJobs s month t gap n).2.rate = some e →
          e.windowStart + RATE_LIMIT_WINDOW < t + gap * n) := by
  intro n
  induction n with
  | zero =>
    intro s t hm hq ha hr
    refine ⟨rfl, ?_, rfl, hm, rfl, ?_⟩
    · show s.keyData.used = s.keyData.used + 0
      omega
    · intro e he
      have := hr e he
      simpa using this
  | succ n ih =>
    intro s t hm hq ha hr
    have hjob := runJob_benign s month t hm (by omega) ha hr
    have ihres := ih
      { s with
          keyData := { s.keyData with used := s.keyData.used + 1 }
          rate := some ⟨1, t⟩ }
      (t + gap) hm (by dsimp only; omega) ha
      (by
        intro e he
        dsimp only at he
        obtain rfl : RateEntry.mk 1 t = e := by simpa using he
        dsimp only
        omega)
    dsimp only at ihres
    simp only [runJobs, hjob]
    obtain ⟨i1, i2, i3, i4, i5, i6⟩ := ihres
    refine ⟨?_, by omega, by omega, i4, i5, ?_⟩
    · rw [i1, List.replicate_succ]
    · intro e he
      have := i6 e he
      rw [Nat.mul_succ]
      omega

theorem runJobs_add (s : ServerState) (month : String) (t gap m k : Nat) :
    runJobs s month t gap (m + k)
      = ((runJobs s month t gap m).1 ++
          (runJobs (runJobs s month t gap m).2 month (t + gap * m) gap k).1,
         (runJobs (runJobs s month t gap m).2 month (t + gap * m) gap k).2) := by
  induction m generalizing s t with
  | zero => simp [runJobs]
  | succ n ih =>
    have hn : n + 1 + k = (n + k) + 1 := by omega
    rw [hn]
    simp only [runJobs]
    rw [ih]
    have ht : t + gap + gap * n = t + gap * (n + 1) := by
      rw [Nat.mul_succ]
      omega
    rw [ht]
    simp [List.cons_append]

/-- C2: a pending, unexpired invoice checked while the chain shows a
transfer within 1000 atomic units of its quoted amount is marked paid
with the hash of the first such transfer; the subscribe-check handler
then issues a credential under the invoice key with tier equal to the
invoice plan, limit equal to the plan limit and zero usage into the
credential store, and returns the paid invoice with a non-null key; that
credential then admits capture jobs up to its plan limit and is denied
with the quota error on the next one (jobs spaced beyond the rate
window, so only the monthly quota binds). Persistence in the source is a
write-through of exactly the states returned here. -/
theorem paid_invoice_issues_working_credential
    (apiKeys : List (String × KeyData)) (inv : Invoice) (now : Nat)
    (logs : List Transfer) (freshKey currentMonth : String) (planData : Plan)
    (hpend : inv.status = .pending)
    (hexp : ¬ inv.expires_at < now)
    (hmatch : ∃ tr ∈ logs, ((tr.data : Int) - inv.amount_raw).natAbs < 1000)
    (hplan : PLANS inv.plan = some planData)
    (hfresh : lookupKey apiKeys ("pro_" ++ freshKey) = none) :
    ∃ tr,
      logs.find? (fun l => ((l.data : Int) - inv.amount_raw).natAbs < 1000) = some tr ∧
      (subscribeCheckHandler apiKeys inv now (.ok logs) freshKey currentMonth).1.status
          = .paid ∧
      (subscribeCheckHandler apiKeys inv now (.ok logs) freshKey currentMonth).1.api_key
          = some ("pro_" ++ freshKey) ∧
      (subscribeCheckHandler apiKeys inv now (.ok logs) freshKey currentMonth).2.1.status
          = .paid ∧
      (subscribeCheckHandler apiKeys inv now (.ok logs) freshKey currentMonth).2.1.tx_hash
          = some tr.transactionHash ∧
      lookupKey (subscribeCheckHandler apiKeys inv now (.ok logs) freshKey currentMonth).2.2
          ("pro_" ++ freshKey)
        = some
            { name := inv.email.getD inv.plan
              tier := inv.plan
              limit := planData.limit
              used := 0
              resetMonth := currentMonth } ∧
      (runJobs
          { keyData :=
              { name := inv.email.getD inv.plan
                tier := inv.plan
                limit := planData.limit
                used := 0
                resetMonth := currentMonth }
            rate := none
            activeTasks := 0
            settleErrors := 0 }
          currentMonth 0 (RATE_LIMIT_WINDOW + 1) (planData.limit + 1)).1
        = List.replicate planData.limit (ReqResult.ok false false)
            ++ [ReqResult.authQuota] := by
  have hsome : (logs.find? (fun l => ((l.data : Int) - inv.amount_raw).natAbs < 1000)).isSome := by
    rw [List.find?_isSome]
    obtain ⟨tr, htr, hcl⟩ := hmatch
    exact ⟨tr, htr, by simpa using hcl⟩
  obtain ⟨tr, hfound⟩ := Option.isSome_iff_exists.1 hsome
  refine ⟨tr, hfound, ?_⟩
  have hck := checkPayment_pending_match inv now logs tr freshKey hpend hexp hfound
  have hhandler :
      subscribeCheckHandler apiKeys inv now (.ok logs) freshKey currentMonth
        = ({ invoice_id := inv.id, status := .paid,
             api_key := some ("pro_" ++ freshKey), tx_hash := some tr.transactionHash },
           { inv with
               status := .paid
               tx_hash := some tr.transactionHash
               paid_at := some now
               api_key := some ("pro_" ++ freshKey) },
           ("pro_" ++ freshKey,
             { name := inv.email.getD inv.plan
               tier := inv.plan
               limit := planData.limit
               used := 0
               resetMonth := currentMonth }) :: apiKeys) := by
    simp [subscribeCheckHandler, hck, hfresh, hplan]
  rw [hhandler]
  refine ⟨rfl, rfl, rfl, rfl, by simp [lookupKey], ?_⟩
  have hall := runJobs_all_ok (RATE_LIMIT_WINDOW + 1) (by omega) currentMonth
    planData.limit
    { keyData :=
        { name := inv.email.getD inv.plan
          tier := inv.plan
          limit := planData.limit
          used := 0
          resetMonth := currentMonth }
      rate := none
      activeTasks := 0
      settleErrors := 0 }
    0 rfl
    (by show (0 : Nat) + planData.limit ≤ planData.limit; omega)
    (by show (0 : Nat) < MAX_CONCURRENT; decide)
    (fun e he => Option.noConfusion he)
  obtain ⟨a1, a2, a3, a4, a5, a6⟩ := hall
  have hlast := runJob_quota
    (runJobs
        { keyData :=
            { name := inv.email.getD inv.plan
              tier := inv.plan
              limit := planData.limit
              used := 0
              resetMonth := currentMonth }
          rate := none
          activeTasks := 0
          settleErrors := 0 }
        currentMonth 0 (RATE_LIMIT_WINDOW + 1) planData.limit).2
    currentMonth ((RATE_LIMIT_WINDOW + 1) * planData.limit)
    a4
    (by
      rw [a3, a2]
      show planData.limit ≤ 0 + planData.limit
      omega)
  rw [runJobs_add _ _ _ _ planData.limit 1]
  dsimp only
  rw [a1]
  congr 1
  simp [runJobs, hlast]

/-- Witness for C2: the concrete pending invoice, a matching transfer and
an empty credential store; the issued pro credential admits 1000 jobs
and is denied on the 1001st. -/
theorem paid_invoice_issues_working_credential_witness :
    ∃ tr,
      [transferC].find? (fun l => ((l.data : Int) - invC.amount_raw).natAbs < 1000)
          = some tr ∧
      (subscribeCheckHandler [] invC 10 (.ok [transferC]) "k" "m").1.status = .paid ∧
      (subscribeCheckHandler [] invC 10 (.ok [transferC]) "k" "m").1.api_key
          = some ("pro_" ++ "k") ∧
      (subscribeCheckHandler [] invC 10 (.ok [transferC]) "k" "m").2.1.status = .paid ∧
      (subscribeCheckHandler [] invC 10 (.ok [transferC]) "k" "m").2.1.tx_hash
          = some tr.transactionHash ∧
      lookupKey (subscribeCheckHandler [] invC 10 (.ok [transferC]) "k" "m").2.2
          ("pro_" ++ "k")
        = some
            { name := invC.email.getD invC.plan
              tier := invC.plan
              limit := (Plan.mk 10 1000 "Pro").limit
              used := 0
              resetMonth := "m" } ∧
      (runJobs
          { keyData :=
              { name := invC.email.getD invC.plan
                tier := invC.plan
                limit := (Plan.mk 10 1000 "Pro").limit
                used := 0
                resetMonth := "m" }
            rate := none
            activeTasks := 0
            settleErrors := 0 }
          "m" 0 (RATE_LIMIT_WINDOW + 1) ((Plan.mk 10 1000 "Pro").limit + 1)).1
        = List.replicate (Plan.mk 10 1000 "Pro").limit (ReqResult.ok false false)
            ++ [ReqResult.authQuota] :=
  paid_invoice_issues_working_credential [] invC 10 [transferC] "k" "m"
    (Plan.mk 10 1000 "Pro") rfl (by decide)
    ⟨transferC, by simp, by decide⟩ rfl rfl

end SnapAPI
